import Mathlib

/-!
# Verification of the Authorization & Credential Lifecycle Engine

A shallow embedding, in Lean 4, of the RBAC and credential subsystem of the
pulsarconsole backend (`backend/app`): the resource-pattern matcher
(`models/role_permission.py`), the permission join (`repositories/user_role.py`),
the RBAC middleware (`middleware/rbac.py`), the API-token service and repository
(`services/api_token.py`, `repositories/api_token.py`), sessions
(`models/session.py`, `repositories/session.py`) and the cryptographic
primitives (`core/security.py`).

Python strings are embedded as `List Char`, machine timestamps as `Int`
(seconds), UUIDs as `Nat`, database tables as Lean lists, and the ambient
random source / wall clock as explicit parameters.  Fallible Python code
(raising) returns `Option` / `Except`.
-/

set_option autoImplicit false

namespace PulsarConsole

/-! ## Python string helpers over `List Char` -/

/-- Python `s.startswith(pre)`. -/
def pyStartsWith (s pre : List Char) : Bool :=
  List.isPrefixOf pre s

/-- Python `s.endswith(suf)`. -/
def pyEndsWith (s suf : List Char) : Bool :=
  List.isSuffixOf suf s

/-- Python `s[:-n]` for `n ≤ len(s)` (drop the last `n` characters). -/
def pyDropLast (n : Nat) (s : List Char) : List Char :=
  s.take (s.length - n)

/-- Python `str(n)` for a natural number (decimal representation). -/
def pyStr (n : Nat) : List Char :=
  Nat.toDigits 10 n

/-! ## `fnmatch.fnmatch` (shell-glob matching)

The glob matcher used by `RolePermission.matches_resource` for patterns that
contain a `*` but do not fall in the `/*` / `/**` suffix forms.  On POSIX,
`fnmatch.fnmatch(name, pat)` is a case-sensitive full match of `name` against
`pat`, where `*` matches any run of characters, `?` matches one character, and
`[seq]` / `[!seq]` match one character of / outside a set (with `a-b` ranges;
an unterminated `[` is a literal). -/

/-- One `[seq]` item: a literal character or an `a-b` range. -/
inductive GlobSetItem where
  | lit (c : Char)
  | range (lo hi : Char)
  deriving DecidableEq

/-- Does character `c` satisfy one glob-set item? -/
def globSetItemMatch (c : Char) : GlobSetItem → Bool
  | .lit d => c == d
  | .range lo hi => lo ≤ c && c ≤ hi

/-- Parse the body of a `[...]` class after the opening bracket (and after any
leading `!`), accumulating items until the closing `]`.  Returns the items and
the rest of the pattern, or `none` when the class is unterminated. -/
def parseGlobSet : List Char → Option (List GlobSetItem × List Char)
  | [] => none
  | ']' :: rest => some ([], rest)
  | lo :: '-' :: hi :: rest =>
    if hi = ']' then
      -- `x-]`: the `-` is a literal set member and `]` closes the set
      some ([.lit lo, .lit '-'], rest)
    else
      match parseGlobSet rest with
      | some (items, rest') => some (.range lo hi :: items, rest')
      | none => none
  | c :: rest =>
    match parseGlobSet rest with
    | some (items, rest') => some (.lit c :: items, rest')
    | none => none

/-- Full-string glob match of `s` against pattern `p` (fnmatch semantics),
with a structural fuel so the function evaluates inside the kernel.  Every
recursive call strictly decreases `|p| + |s|`, so any fuel above that bound
gives the matcher's value (the wrapper `globMatch` supplies one). -/
def globMatchF : Nat → List Char → List Char → Bool
  | 0, _, _ => false
  | fuel + 1, pat, s =>
    match pat, s with
    | [], s => s.isEmpty
    | '*' :: ps, s =>
      globMatchF fuel ps s ||
        (match s with
         | [] => false
         | _ :: s' => globMatchF fuel ('*' :: ps) s')
    | '?' :: ps, s =>
      match s with
      | [] => false
      | _ :: s' => globMatchF fuel ps s'
    | '[' :: ps, s =>
      match ps with
      | '!' :: ps' =>
        match parseGlobSet ps' with
        | some (items, rest) =>
          match s with
          | [] => false
          | c :: s' => !(items.any (globSetItemMatch c)) && globMatchF fuel rest s'
        | none =>
          -- unterminated class: `[` is a literal
          match s with
          | [] => false
          | c :: s' => ('[' == c) && globMatchF fuel ps s'
      | _ =>
        match parseGlobSet ps with
        | some (items, rest) =>
          match s with
          | [] => false
          | c :: s' => items.any (globSetItemMatch c) && globMatchF fuel rest s'
        | none =>
          match s with
          | [] => false
          | c :: s' => ('[' == c) && globMatchF fuel ps s'
    | c :: ps, s =>
      match s with
      | [] => false
      | d :: s' => (c == d) && globMatchF fuel ps s'

/-- `fnmatch.fnmatch(s, p)` (POSIX, case-sensitive). -/
def globMatch (pat s : List Char) : Bool :=
  globMatchF (pat.length + s.length + 1) pat s

/-! ## `RolePermission.matches_resource` (`models/role_permission.py`) -/

/-- `RolePermission.matches_resource`: does a stored resource pattern cover a
concrete resource path.  `none` (SQL NULL) covers every resource; otherwise the
code tries, in order: exact equality, the `/*` suffix form, the `/**` suffix
form, and finally `fnmatch` when the pattern contains a `*`. -/
def matches_resource (resourcePattern : Option (List Char)) (resourcePath : List Char) : Bool :=
  match resourcePattern with
  | none => true
  | some pat =>
    if pat == resourcePath then
      true
    else if pyEndsWith pat ['/', '*'] then
      let stem := pyDropLast 2 pat
      pyStartsWith resourcePath (stem ++ ['/']) || resourcePath == stem
    else if pyEndsWith pat ['/', '*', '*'] then
      let stem := pyDropLast 3 pat
      pyStartsWith resourcePath stem
    else if pat.contains '*' then
      globMatch pat resourcePath
    else
      false

/-! ## Permission & Role store (`models/permission.py`, `models/role.py`,
`models/user_role.py`, `models/role_permission.py`) -/

/-- `PermissionAction` enum (`models/permission.py`). -/
inductive PermissionAction where
  | produce | consume | functions | sources | sinks | packages | admin | read | write
  deriving DecidableEq

/-- `ResourceLevel` enum (`models/permission.py`).  `namespace` is a Lean
keyword, so that constructor is spelled `nspace`. -/
inductive ResourceLevel where
  | cluster | tenant | nspace | topic
  deriving DecidableEq

instance : BEq PermissionAction := ⟨fun a b => decide (a = b)⟩
instance : BEq ResourceLevel := ⟨fun a b => decide (a = b)⟩

/-- A row of the `permissions` table. -/
structure Permission where
  id : Nat
  action : PermissionAction
  resourceLevel : ResourceLevel
  deriving DecidableEq

/-- A row of the `roles` table. -/
structure Role where
  id : Nat
  environmentId : Nat
  name : List Char
  isSystem : Bool
  deriving DecidableEq

/-- A row of the `user_roles` table. -/
structure UserRole where
  id : Nat
  userId : Nat
  roleId : Nat
  assignedBy : Option Nat
  deriving DecidableEq

/-- A row of the `role_permissions` table. -/
structure RolePermission where
  id : Nat
  roleId : Nat
  permissionId : Nat
  resourcePattern : Option (List Char)
  deriving DecidableEq

/-- The relational store consulted by `UserRoleRepository.check_permission`. -/
structure RbacDb where
  userRoles : List UserRole
  roles : List Role
  rolePermissions : List RolePermission
  permissions : List Permission
  deriving DecidableEq

/-- The SQL join inside `UserRoleRepository.check_permission`: all
`RolePermission` rows reachable from one of the user's `UserRole` rows whose
`Role` lives in the environment and whose `Permission` is `(action, level)`.
The `select(RolePermission)` projection keeps a row when at least one join
partner exists in each joined table. -/
def matchingRolePermissions (db : RbacDb) (userId environmentId : Nat)
    (action : PermissionAction) (resourceLevel : ResourceLevel) : List RolePermission :=
  db.rolePermissions.filter fun rp =>
    (db.userRoles.any fun ur =>
      ur.roleId == rp.roleId && ur.userId == userId &&
        db.roles.any fun role =>
          role.id == ur.roleId && role.environmentId == environmentId) &&
    (db.permissions.any fun perm =>
      perm.id == rp.permissionId && perm.action == action &&
        perm.resourceLevel == resourceLevel)

/-- `UserRoleRepository.check_permission` (`repositories/user_role.py`): run
the join; with no matching rows return `false`; with no `resource_path`
existence suffices; otherwise scan the rows through the matcher. -/
def check_permission (db : RbacDb) (userId environmentId : Nat)
    (action : PermissionAction) (resourceLevel : ResourceLevel)
    (resourcePath : Option (List Char)) : Bool :=
  let rolePerms := matchingRolePermissions db userId environmentId action resourceLevel
  if rolePerms.isEmpty then
    false
  else
    match resourcePath with
    | none => true
    | some path => rolePerms.any fun rp => matches_resource rp.resourcePattern path

/-! ## Credential primitives (`core/security.py`)

`hashlib.sha256` is embedded as a full executable SHA-256 over byte lists
(`List Nat`, each entry `< 256`); `base64.urlsafe_b64encode` and
`secrets.token_urlsafe` over the same byte lists.  Randomness
(`secrets.token_urlsafe`, `os.urandom`) becomes an explicit byte-list
parameter. -/

/-- 2^32, the word modulus of SHA-256. -/
def w32 : Nat := 4294967296

/-- Right-rotation of a 32-bit word by `n`. -/
def rotr32 (n x : Nat) : Nat :=
  ((x >>> n) ||| (x <<< (32 - n))) % w32

/-- The SHA-256 round constants. -/
def sha256K : List Nat :=
  [1116352408, 1899447441, 3049323471, 3921009573, 961987163,
   1508970993, 2453635748, 2870763221, 3624381080, 310598401,
   607225278, 1426881987, 1925078388, 2162078206, 2614888103,
   3248222580, 3835390401, 4022224774, 264347078, 604807628,
   770255983, 1249150122, 1555081692, 1996064986, 2554220882,
   2821834349, 2952996808, 3210313671, 3336571891, 3584528711,
   113926993, 338241895, 666307205, 773529912, 1294757372,
   1396182291, 1695183700, 1986661051, 2177026350, 2456956037,
   2730485921, 2820302411, 3259730800, 3345764771, 3516065817,
   3600352804, 4094571909, 275423344, 430227734, 506948616,
   659060556, 883997877, 958139571, 1322822218, 1537002063,
   1747873779, 1955562222, 2024104815, 2227730452, 2361852424,
   2428436474, 2756734187, 3204031479, 3329325298]

/-- The SHA-256 initial hash state. -/
def sha256H0 : List Nat :=
  [1779033703, 3144134277, 1013904242, 2773480762,
   1359893119, 2600822924, 528734635, 1541459225]

/-- SHA-256 message padding: append `0x80`, zeros to 56 mod 64, then the bit
length as 8 big-endian bytes. -/
def sha256Pad (msg : List Nat) : List Nat :=
  let ml := msg.length * 8
  let zeros := (64 - (msg.length + 9) % 64) % 64
  msg ++ [0x80] ++ List.replicate zeros 0 ++
    [(ml >>> 56) % 256, (ml >>> 48) % 256, (ml >>> 40) % 256, (ml >>> 32) % 256,
     (ml >>> 24) % 256, (ml >>> 16) % 256, (ml >>> 8) % 256, ml % 256]

/-- Group `4 * n` bytes into `n` big-endian 32-bit words. -/
def bytesToWordsBE : Nat → List Nat → List Nat
  | 0, _ => []
  | n + 1, b0 :: b1 :: b2 :: b3 :: rest =>
    (((b0 * 256 + b1) * 256 + b2) * 256 + b3) :: bytesToWordsBE n rest
  | _ + 1, _ => []

/-- One 32-bit word as 4 big-endian bytes. -/
def wordToBytesBE (x : Nat) : List Nat :=
  [(x >>> 24) % 256, (x >>> 16) % 256, (x >>> 8) % 256, x % 256]

/-- One step of the SHA-256 message-schedule extension.  `acc` holds the words
produced so far, most recent first. -/
def sha256ScheduleStep (acc : List Nat) : Nat :=
  let w15 := acc.getD 14 0
  let w2 := acc.getD 1 0
  let s0 := (rotr32 7 w15) ^^^ (rotr32 18 w15) ^^^ (w15 >>> 3)
  let s1 := (rotr32 17 w2) ^^^ (rotr32 19 w2) ^^^ (w2 >>> 10)
  (acc.getD 15 0 + s0 + acc.getD 6 0 + s1) % w32

/-- Extend the 16 chunk words (given reversed) by `n` further schedule words,
returning all words in order. -/
def sha256Schedule : Nat → List Nat → List Nat
  | 0, acc => acc.reverse
  | n + 1, acc => sha256Schedule n (sha256ScheduleStep acc :: acc)

/-- One SHA-256 compression round.  The state is `[a, b, c, d, e, f, g, h]`;
`kw` is the round constant paired with the schedule word. -/
def sha256Round (st : List Nat) (kw : Nat × Nat) : List Nat :=
  let a := st.getD 0 0
  let b := st.getD 1 0
  let c := st.getD 2 0
  let d := st.getD 3 0
  let e := st.getD 4 0
  let f := st.getD 5 0
  let g := st.getD 6 0
  let h := st.getD 7 0
  let s1 := (rotr32 6 e) ^^^ (rotr32 11 e) ^^^ (rotr32 25 e)
  let ch := (e &&& f) ^^^ ((w32 - 1 - e) &&& g)
  let t1 := (h + s1 + ch + kw.1 + kw.2) % w32
  let s0 := (rotr32 2 a) ^^^ (rotr32 13 a) ^^^ (rotr32 22 a)
  let maj := (a &&& b) ^^^ (a &&& c) ^^^ (b &&& c)
  let t2 := (s0 + maj) % w32
  [(t1 + t2) % w32, a, b, c, (d + t1) % w32, e, f, g]

/-- Process one 64-byte chunk against the running hash state. -/
def sha256Chunk (h : List Nat) (chunk : List Nat) : List Nat :=
  let ws16 := bytesToWordsBE 16 chunk
  let ws := sha256Schedule 48 ws16.reverse
  let st := (sha256K.zip ws).foldl sha256Round h
  (h.zip st).map fun p => (p.1 + p.2) % w32

/-- Split a padded message into its 64-byte chunks (`n` of them). -/
def chunks64 : Nat → List Nat → List (List Nat)
  | 0, _ => []
  | n + 1, l => l.take 64 :: chunks64 n (l.drop 64)

/-- `hashlib.sha256(msg).digest()`: the 32-byte SHA-256 digest. -/
def sha256 (msg : List Nat) : List Nat :=
  let padded := sha256Pad msg
  let final := (chunks64 (padded.length / 64) padded).foldl sha256Chunk sha256H0
  final.foldr (fun word acc => wordToBytesBE word ++ acc) []

/-- Lower-case hex character for a value `< 16`. -/
def hexChar (n : Nat) : Char :=
  "0123456789abcdef".toList.getD n '0'

/-- `.hexdigest()`: the byte list rendered as lower-case hex. -/
def hexDigest (bytes : List Nat) : List Char :=
  bytes.foldr (fun b acc => hexChar (b / 16) :: hexChar (b % 16) :: acc) []

/-- UTF-8 encoding of one character (`str.encode()` with no arguments). -/
def utf8EncodeChar (c : Char) : List Nat :=
  let n := c.toNat
  if n < 0x80 then [n]
  else if n < 0x800 then [0xC0 ||| (n >>> 6), 0x80 ||| (n &&& 0x3F)]
  else if n < 0x10000 then
    [0xE0 ||| (n >>> 12), 0x80 ||| ((n >>> 6) &&& 0x3F), 0x80 ||| (n &&& 0x3F)]
  else
    [0xF0 ||| (n >>> 18), 0x80 ||| ((n >>> 12) &&& 0x3F),
     0x80 ||| ((n >>> 6) &&& 0x3F), 0x80 ||| (n &&& 0x3F)]

/-- UTF-8 encoding of a string (`value.encode()`). -/
def utf8Encode (s : List Char) : List Nat :=
  s.foldr (fun c acc => utf8EncodeChar c ++ acc) []

/-- `hash_value` (`core/security.py`): SHA-256 hex digest of the UTF-8 bytes. -/
def hash_value (value : List Char) : List Char :=
  hexDigest (sha256 (utf8Encode value))

/-! ### base64url and opaque tokens -/

/-- The URL-safe base64 alphabet (`base64.urlsafe_b64encode`). -/
def b64UrlAlphabet : List Char :=
  "ABCDEFGHIJKLMNOPQRSTUVWXYZabcdefghijklmnopqrstuvwxyz0123456789-_".toList

/-- The alphabet character for a 6-bit value. -/
def b64Char (n : Nat) : Char :=
  b64UrlAlphabet.getD n 'A'

/-- Base64url encoding, 3 input bytes per 4 output characters, `=`-padded.
`fuel` bounds the number of groups; it never runs out when
`bs.length ≤ 3 * fuel`. -/
def b64Go : Nat → List Nat → List Char
  | 0, _ => []
  | _ + 1, [] => []
  | _ + 1, [b0] =>
    [b64Char (b0 >>> 2), b64Char ((b0 &&& 3) <<< 4), '=', '=']
  | _ + 1, [b0, b1] =>
    [b64Char (b0 >>> 2), b64Char (((b0 &&& 3) <<< 4) ||| (b1 >>> 4)),
     b64Char ((b1 &&& 15) <<< 2), '=']
  | fuel + 1, b0 :: b1 :: b2 :: rest =>
    b64Char (b0 >>> 2) :: b64Char (((b0 &&& 3) <<< 4) ||| (b1 >>> 4)) ::
      b64Char (((b1 &&& 15) <<< 2) ||| (b2 >>> 6)) :: b64Char (b2 &&& 63) ::
        b64Go fuel rest

/-- `base64.urlsafe_b64encode(bs)` (with padding). -/
def b64UrlEncode (bs : List Nat) : List Char :=
  b64Go (bs.length / 3 + 1) bs

/-- Python `s.rstrip("=")`. -/
def rstripEq (s : List Char) : List Char :=
  (s.reverse.dropWhile (· == '=')).reverse

/-- Base64url without padding: `urlsafe_b64encode(...).rstrip("=")` — this is
also `secrets.token_urlsafe` applied to the random bytes. -/
def b64UrlNoPad (bs : List Nat) : List Char :=
  rstripEq (b64UrlEncode bs)

/-- `generate_api_token` (`core/security.py`): a `pc_`-prefixed URL-safe
token from 32 random bytes, its SHA-256 hex digest, and the first 11
characters for display.  The random bytes of `secrets.token_urlsafe(32)` are
the explicit `randomBytes` argument. -/
def generate_api_token (randomBytes : List Nat) : List Char × List Char × List Char :=
  let fullToken := "pc_".toList ++ b64UrlNoPad randomBytes
  (fullToken, hash_value fullToken, fullToken.take 11)

/-! ### PKCE (`core/security.py`) -/

/-- The `PKCEChallenge` result model. -/
structure PKCEChallenge where
  codeVerifier : List Char
  codeChallenge : List Char
  codeChallengeMethod : List Char
  deriving DecidableEq

/-- Is every character ASCII (so that `str.encode("ascii")` succeeds)? -/
def asciiOk (s : List Char) : Bool :=
  s.all fun c => c.toNat < 128

/-- `s.encode("ascii")`: the code points as bytes, or `none` for the
`UnicodeEncodeError` raised on a non-ASCII character. -/
def asciiEncode (s : List Char) : Option (List Nat) :=
  if asciiOk s then some (s.map Char.toNat) else none

/-- `generate_pkce_challenge`: verifier `secrets.token_urlsafe(32)` (random
bytes explicit), challenge the unpadded base64url SHA-256 of the verifier's
ASCII bytes.  The verifier is base64url output, so its `encode("ascii")`
always succeeds (`asciiOk_b64UrlNoPad`) and is the plain code-point map. -/
def generate_pkce_challenge (randomBytes : List Nat) : PKCEChallenge :=
  let codeVerifier := b64UrlNoPad randomBytes
  let shaHash := sha256 (codeVerifier.map Char.toNat)
  { codeVerifier := codeVerifier
    codeChallenge := b64UrlNoPad shaHash
    codeChallengeMethod := "S256".toList }

/-- `verify_pkce_challenge`: recompute the challenge from the verifier and
compare (`secrets.compare_digest`, a constant-time equality).  `none` models
the `UnicodeEncodeError` escaping when the verifier is not ASCII. -/
def verify_pkce_challenge (codeVerifier codeChallenge : List Char) : Option Bool :=
  match asciiEncode codeVerifier with
  | none => none
  | some verifierBytes =>
    some (b64UrlNoPad (sha256 verifierBytes) == codeChallenge)

/-- Does `m` differ from `v` in exactly one position (same length)? -/
def singleCharMutation (m v : List Char) : Bool :=
  m.length == v.length && (m.zip v).countP (fun p => p.1 != p.2) == 1

/-! ## Signed tokens (`core/security.py`, JWT functions)

The PyJWT wire format is embedded as an inductive: a structurally well-formed
signed token carrying its claims and the key that signed it, or a malformed
blob.  `jwt.decode` succeeds exactly when the keys agree and the `exp` claim
lies strictly in the future (PyJWT raises `ExpiredSignatureError` when
`exp <= now`, `InvalidTokenError` otherwise). -/

/-- Modelled from the spec: the token-signing configuration (§6 Configuration
interface: "token signing secret/algorithm, and default token lifetimes").
`core/security.py` reads `settings.jwt_secret_key`,
`settings.jwt_access_token_expire_minutes` and
`settings.jwt_refresh_token_expire_days`, but the `Settings` class in
`config.py` under `src/` does not declare these fields. -/
structure JwtSettings where
  jwtSecretKey : List Char
  jwtAccessTokenExpireMinutes : Int
  jwtRefreshTokenExpireDays : Int

/-- The `TokenPayload` pydantic model (`core/security.py`): `sub`, `exp`,
`iat`, `type` required, `jti` optional.  Timestamps are seconds. -/
structure TokenPayload where
  sub : List Char
  exp : Int
  iat : Int
  type : List Char
  jti : Option (List Char)
  deriving DecidableEq

/-- A JWT as it travels on the wire. -/
inductive JwtWire where
  | signed (claims : TokenPayload) (key : List Char)
  | malformed (raw : List Char)
  deriving DecidableEq

/-- `create_access_token`: claims `sub = str(user_id)`, `exp`, `iat`,
`type = "access"`, signed with the configured secret.  `expires_delta` is
tested for truthiness (`if expires_delta:`), so a zero delta falls back to the
configured default exactly like `None`. -/
def create_access_token (S : JwtSettings) (userId : Nat) (expiresDelta : Option Int)
    (now : Int) : JwtWire :=
  let expire :=
    match expiresDelta with
    | some d => if d ≠ 0 then now + d else now + S.jwtAccessTokenExpireMinutes * 60
    | none => now + S.jwtAccessTokenExpireMinutes * 60
  .signed ⟨pyStr userId, expire, now, "access".toList, none⟩ S.jwtSecretKey

/-- `create_refresh_token`: like the access token but `type = "refresh"` and a
random `jti` (the randomness is the explicit `jti` argument); returns the
token together with the `jti`. -/
def create_refresh_token (S : JwtSettings) (userId : Nat) (expiresDelta : Option Int)
    (jti : List Char) (now : Int) : JwtWire × List Char :=
  let expire :=
    match expiresDelta with
    | some d => if d ≠ 0 then now + d else now + S.jwtRefreshTokenExpireDays * 86400
    | none => now + S.jwtRefreshTokenExpireDays * 86400
  (.signed ⟨pyStr userId, expire, now, "refresh".toList, some jti⟩ S.jwtSecretKey, jti)

/-- `decode_token`: `jwt.decode` then `TokenPayload(**payload)`; both
`ExpiredSignatureError` and `InvalidTokenError` are caught and mapped to
`None`. -/
def decode_token (S : JwtSettings) (token : JwtWire) (now : Int) : Option TokenPayload :=
  match token with
  | .malformed _ => none
  | .signed claims key =>
    if key ≠ S.jwtSecretKey then none
    else if claims.exp ≤ now then none
    else some claims

/-- `verify_access_token`: decode, then require `type == "access"`. -/
def verify_access_token (S : JwtSettings) (token : JwtWire) (now : Int) :
    Option TokenPayload :=
  match decode_token S token now with
  | some payload => if payload.type == "access".toList then some payload else none
  | none => none

/-- `verify_refresh_token`: decode, then require `type == "refresh"`. -/
def verify_refresh_token (S : JwtSettings) (token : JwtWire) (now : Int) :
    Option TokenPayload :=
  match decode_token S token now with
  | some payload => if payload.type == "refresh".toList then some payload else none
  | none => none

/-! ## RBAC middleware (`middleware/rbac.py`)

The route table holds raw regular expressions; the only constructs they use
are literals, a leading `^`, a trailing `$`, and `[^/]+`.  `reMatchF` is a
backtracking matcher for exactly that fragment with `re.match` (anchored
prefix) semantics, fueled for kernel evaluation: every recursive call strictly
decreases `|pattern| + |input|`. -/

def reMatchF : Nat → List Char → List Char → Bool
  | 0, _, _ => false
  | f + 1, pat, s =>
    match pat, s with
    | [], _ => true
    | ['$'], s => s.isEmpty
    | '^' :: ps, s => reMatchF f ps s
    | '[' :: '^' :: c :: ']' :: '+' :: ps, s =>
      match s with
      | [] => false
      | d :: s' =>
        d ≠ c &&
          (reMatchF f ps s' || reMatchF f ('[' :: '^' :: c :: ']' :: '+' :: ps) s')
    | c :: ps, s =>
      match s with
      | [] => false
      | d :: s' => c == d && reMatchF f ps s'

/-- `re.match(pattern, path)` as a boolean, for the fragment used by
`ROUTE_PERMISSIONS`. -/
def reMatch (pat s : List Char) : Bool :=
  reMatchF (pat.length + s.length + 1) pat s

/-- The `ROUTE_PERMISSIONS` table: `(method, pattern, action, resource_level)`. -/
def ROUTE_PERMISSIONS : List (List Char × List Char × List Char × List Char) :=
  [("GET".toList, "^/api/v1/tenants$".toList, "read".toList, "tenant".toList),
   ("GET".toList, "^/api/v1/tenants/[^/]+$".toList, "read".toList, "tenant".toList),
   ("POST".toList, "^/api/v1/tenants$".toList, "write".toList, "tenant".toList),
   ("PUT".toList, "^/api/v1/tenants/[^/]+$".toList, "write".toList, "tenant".toList),
   ("DELETE".toList, "^/api/v1/tenants/[^/]+$".toList, "admin".toList, "tenant".toList),
   ("GET".toList, "^/api/v1/namespaces$".toList, "read".toList, "namespace".toList),
   ("GET".toList, "^/api/v1/namespaces/[^/]+$".toList, "read".toList, "namespace".toList),
   ("GET".toList, "^/api/v1/tenants/[^/]+/namespaces$".toList, "read".toList, "namespace".toList),
   ("POST".toList, "^/api/v1/namespaces$".toList, "write".toList, "namespace".toList),
   ("PUT".toList, "^/api/v1/namespaces/[^/]+$".toList, "write".toList, "namespace".toList),
   ("DELETE".toList, "^/api/v1/namespaces/[^/]+$".toList, "admin".toList, "namespace".toList),
   ("GET".toList, "^/api/v1/topics$".toList, "read".toList, "topic".toList),
   ("GET".toList, "^/api/v1/topics/[^/]+$".toList, "read".toList, "topic".toList),
   ("POST".toList, "^/api/v1/topics$".toList, "write".toList, "topic".toList),
   ("PUT".toList, "^/api/v1/topics/[^/]+$".toList, "write".toList, "topic".toList),
   ("DELETE".toList, "^/api/v1/topics/[^/]+$".toList, "admin".toList, "topic".toList),
   ("GET".toList, "^/api/v1/subscriptions".toList, "read".toList, "topic".toList),
   ("POST".toList, "^/api/v1/subscriptions".toList, "consume".toList, "topic".toList),
   ("DELETE".toList, "^/api/v1/subscriptions".toList, "admin".toList, "topic".toList),
   ("GET".toList, "^/api/v1/messages".toList, "consume".toList, "topic".toList),
   ("POST".toList, "^/api/v1/messages/peek".toList, "consume".toList, "topic".toList),
   ("POST".toList, "^/api/v1/messages/produce".toList, "produce".toList, "topic".toList),
   ("GET".toList, "^/api/v1/brokers".toList, "read".toList, "cluster".toList),
   ("GET".toList, "^/api/v1/environment".toList, "read".toList, "cluster".toList),
   ("POST".toList, "^/api/v1/environment".toList, "admin".toList, "cluster".toList),
   ("PUT".toList, "^/api/v1/environment".toList, "admin".toList, "cluster".toList),
   ("DELETE".toList, "^/api/v1/environment".toList, "admin".toList, "cluster".toList)]

/-- `RBACMiddleware._get_required_permission`: first table entry whose method
and pattern match. -/
def getRequiredPermission (method path : List Char) : Option (List Char × List Char) :=
  ROUTE_PERMISSIONS.findSome? fun entry =>
    if method == entry.1 && reMatch entry.2.1 path then
      some (entry.2.2.1, entry.2.2.2)
    else
      none

/-- The slice of a request the middleware consults: method, path, and the
`request.state.user_id` set by the auth middleware. -/
structure Request where
  method : List Char
  path : List Char
  stateUserId : Option Nat

/-- A plain HTTP response. -/
structure Response where
  statusCode : Nat
  content : List Char
  deriving DecidableEq

/-- The 403 body written by `StrictRBACMiddleware`. -/
def permissionDeniedResponse (action level : List Char) : Response :=
  ⟨403, "\x7b\"detail\": \"Permission denied: ".toList ++
    action ++ ':' :: level ++ "\"\x7d".toList⟩

/-- `RBACMiddleware.dispatch`: returns the downstream response together with
the `request.state.required_permission` annotation left on the request (the
permission-checking block in the source is commented out). -/
def rbacMiddlewareDispatch (req : Request) (callNext : Request → Response) :
    Response × Option (List Char) :=
  match req.stateUserId with
  | none => (callNext req, none)
  | some _ =>
    match getRequiredPermission req.method req.path with
    | none => (callNext req, none)
    | some (action, level) => (callNext req, some (action ++ ':' :: level))

/-- The `environments` row as the middleware sees it (`models/environment.py`
plus `rbac_enabled`, which `StrictRBACMiddleware` reads but the model under
`src/` does not declare — modelled from the spec's RBAC-enforcement note). -/
structure Environment where
  id : Nat
  isActive : Bool
  rbacEnabled : Bool

/-- `StrictRBACMiddleware.dispatch`.  The missing-from-`src/`
`RBACService.check_permission` and the active-environment lookup are
abstracted as the `checkPermission` and `activeEnv` parameters. -/
def strictRbacMiddlewareDispatch (req : Request) (callNext : Request → Response)
    (activeEnv : Option Environment)
    (checkPermission : Nat → Nat → List Char → List Char → Bool) : Response :=
  match req.stateUserId with
  | none => callNext req
  | some userId =>
    match getRequiredPermission req.method req.path with
    | none => callNext req
    | some (action, level) =>
      match activeEnv with
      | none => callNext req
      | some env =>
        if env.rbacEnabled then
          if checkPermission userId env.id action level then
            callNext req
          else
            permissionDeniedResponse action level
        else
          callNext req

/-! ## API tokens (`models/api_token.py`, `repositories/api_token.py`,
`services/api_token.py`) and sessions (`models/session.py`,
`repositories/session.py`) -/

/-- Modelled from the spec: the `User` identity record (§3: "id, active
flag").  `models/user.py` and `repositories/user.py` are absent from `src/`;
only their callers are present. -/
structure User where
  id : Nat
  isActive : Bool
  deriving DecidableEq

/-- A row of the `api_tokens` table. -/
structure ApiToken where
  id : Nat
  userId : Nat
  name : List Char
  tokenHash : List Char
  tokenPref : List Char
  expiresAt : Option Int
  lastUsedAt : Option Int
  isRevoked : Bool
  scopes : Option (List (List Char))
  deriving DecidableEq

/-- `ApiToken.is_expired`: `now > expires_at`, never expired when NULL. -/
def ApiToken.is_expired (t : ApiToken) (now : Int) : Bool :=
  match t.expiresAt with
  | none => false
  | some e => decide (now > e)

/-- `ApiToken.is_valid`: not expired and not revoked. -/
def ApiToken.is_valid (t : ApiToken) (now : Int) : Bool :=
  !t.is_expired now && !t.isRevoked

/-- The store behind `ApiTokenService`: the `users` and `api_tokens` tables. -/
structure TokenDb where
  users : List User
  tokens : List ApiToken
  deriving DecidableEq

/-- `UserRepository.get_by_id` (modelled from the spec, see `User`). -/
def userGetById (db : TokenDb) (userId : Nat) : Option User :=
  db.users.find? fun u => u.id == userId

/-- `ApiTokenRepository.get_by_id`. -/
def tokenGetById (db : TokenDb) (tokenId : Nat) : Option ApiToken :=
  db.tokens.find? fun t => t.id == tokenId

/-- `ApiTokenRepository.get_valid_token`: row with this hash that is not
revoked and where `expires_at > now OR expires_at IS NULL`. -/
def get_valid_token (db : TokenDb) (tokenHash : List Char) (now : Int) : Option ApiToken :=
  db.tokens.find? fun t =>
    t.tokenHash == tokenHash && t.isRevoked == false &&
      (match t.expiresAt with
       | some e => decide (e > now)
       | none => true)

/-- `ApiTokenRepository.update_last_used`. -/
def update_last_used (db : TokenDb) (tokenId : Nat) (now : Int) : TokenDb :=
  { db with
    tokens := db.tokens.map fun t =>
      if t.id == tokenId then { t with lastUsedAt := some now } else t }

/-- `ApiTokenRepository.revoke`: set `is_revoked` on the row, if present. -/
def revokeById (db : TokenDb) (tokenId : Nat) : TokenDb :=
  { db with
    tokens := db.tokens.map fun t =>
      if t.id == tokenId then { t with isRevoked := true } else t }

/-- `ApiTokenService.create_token`: reject a missing or inactive user
(`ValueError`), generate the token, and compute `expires_at` — note the Python
truthiness test `if expires_in_days:`, under which `0` behaves like `None`
(no expiry).  The generated randomness and the new row id are explicit. -/
def create_token (db : TokenDb) (userId : Nat) (name : List Char)
    (expiresInDays : Option Int) (scopes : Option (List (List Char)))
    (randomBytes : List Nat) (newId : Nat) (now : Int) :
    Except (List Char) (List Char × ApiToken × TokenDb) :=
  match userGetById db userId with
  | none => .error "User not found".toList
  | some user =>
    if !user.isActive then
      .error "User is not active".toList
    else
      let generated := generate_api_token randomBytes
      let expiresAt : Option Int :=
        match expiresInDays with
        | some d => if d ≠ 0 then some (now + d * 86400) else none
        | none => none
      let tok : ApiToken :=
        ⟨newId, userId, name, generated.2.1, generated.2.2, expiresAt, none, false, scopes⟩
      .ok (generated.1, tok, { db with tokens := db.tokens ++ [tok] })

/-- `ApiTokenService.validate_token`: hash the input, look up a valid row,
record last-used, then resolve the user — missing or inactive users make the
token invalid even though the row itself is valid. -/
def validate_token (db : TokenDb) (token : List Char) (now : Int) :
    Option (User × ApiToken) × TokenDb :=
  let tokenHash := hash_value token
  match get_valid_token db tokenHash now with
  | none => (none, db)
  | some apiToken =>
    let db' := update_last_used db apiToken.id now
    match userGetById db' apiToken.userId with
    | none => (none, db')
    | some user =>
      if !user.isActive then (none, db')
      else (some (user, { apiToken with lastUsedAt := some now }), db')

/-- `ApiTokenService.revoke_token`: only the owner may revoke; revoking an
already-revoked owned token is a no-op success. -/
def revoke_token (db : TokenDb) (tokenId userId : Nat) : Bool × TokenDb :=
  match tokenGetById db tokenId with
  | none => (false, db)
  | some token =>
    if token.userId ≠ userId then (false, db)
    else (true, revokeById db tokenId)

/-- `ApiTokenService.revoke_all_user_tokens` /
`ApiTokenRepository.revoke_all_for_user`. -/
def revoke_all_user_tokens (db : TokenDb) (userId : Nat) : Nat × TokenDb :=
  let hit := fun t : ApiToken => t.userId == userId && t.isRevoked == false
  ((db.tokens.filter hit).length,
    { db with tokens := db.tokens.map fun t => if hit t then { t with isRevoked := true } else t })

/-- `ApiTokenService.delete_token`: owner-checked hard delete. -/
def delete_token (db : TokenDb) (tokenId userId : Nat) : Bool × TokenDb :=
  match tokenGetById db tokenId with
  | none => (false, db)
  | some token =>
    if token.userId ≠ userId then (false, db)
    else (true, { db with tokens := db.tokens.filter fun t => !(t.id == tokenId) })

/-- The operations `ApiTokenService` exposes on the token store, as a step
alphabet for reasoning about operation sequences. -/
inductive TokenOp where
  | createOp (userId : Nat) (name : List Char) (expiresInDays : Option Int)
      (scopes : Option (List (List Char))) (randomBytes : List Nat) (newId : Nat) (now : Int)
  | validateOp (token : List Char) (now : Int)
  | revokeOp (tokenId userId : Nat)
  | revokeAllOp (userId : Nat)
  | deleteOp (tokenId userId : Nat)

/-- The state effect of one service operation. -/
def tokenStep (db : TokenDb) : TokenOp → TokenDb
  | .createOp u n e sc rb newId now =>
    match create_token db u n e sc rb newId now with
    | .ok r => r.2.2
    | .error _ => db
  | .validateOp t now => (validate_token db t now).2
  | .revokeOp tid uid => (revoke_token db tid uid).2
  | .revokeAllOp uid => (revoke_all_user_tokens db uid).2
  | .deleteOp tid uid => (delete_token db tid uid).2

/-- Run a sequence of service operations. -/
def runOps (db : TokenDb) : List TokenOp → TokenDb
  | [] => db
  | op :: ops => runOps (tokenStep db op) ops

/-- An operation neither mints a token colliding with hash `h` nor reuses row
id `tid` (token generation is 32 fresh random bytes; ids are fresh UUIDs). -/
def opAvoids (h : List Char) (tid : Nat) : TokenOp → Prop
  | .createOp _ _ _ _ randomBytes newId _ =>
    hash_value ("pc_".toList ++ b64UrlNoPad randomBytes) ≠ h ∧ newId ≠ tid
  | _ => True

/-- A row of the `sessions` table (`models/session.py`). -/
structure Session where
  id : Nat
  userId : Nat
  accessTokenHash : List Char
  refreshTokenEncrypted : Option (List Char)
  expiresAt : Int
  isRevoked : Bool
  deriving DecidableEq

/-- `Session.is_expired`: `datetime.now(timezone.utc) > expires_at`. -/
def Session.is_expired (s : Session) (now : Int) : Bool :=
  decide (now > s.expiresAt)

/-- `Session.is_valid`: not expired and not revoked. -/
def Session.is_valid (s : Session) (now : Int) : Bool :=
  !s.is_expired now && !s.isRevoked

/-- `SessionRepository.get_valid_session`: row with this access-token hash,
not revoked, with `expires_at > now`. -/
def get_valid_session (sessions : List Session) (tokenHash : List Char) (now : Int) :
    Option Session :=
  sessions.find? fun s =>
    s.accessTokenHash == tokenHash && s.isRevoked == false && decide (s.expiresAt > now)

/-! ### Sample stores and inputs used by counterexamples and witnesses -/

/-- The 32 sample random bytes standing for `secrets.token_urlsafe(32)`. -/
def pkceRndSample : List Nat := List.range 32

/-- The sample verifier with its first character replaced by `é` (U+00E9). -/
def pkceMutSample : List Char :=
  Char.ofNat 233 :: (generate_pkce_challenge pkceRndSample).codeVerifier.tail

/-- Sample JWT configuration. -/
def jwtSampleSettings : JwtSettings := ⟨"secret".toList, 30, 7⟩

/-- A structurally well-formed access token, signed with the configured
secret, whose `exp` (0) is in the past at decode time (5). -/
def jwtExpiredSample : JwtWire :=
  .signed ⟨pyStr 1, 0, 0, "access".toList, none⟩ "secret".toList

/-- The boundary session: not revoked, `expires_at = 0`, observed at `now = 0`. -/
def sessionBoundarySample : Session := ⟨1, 1, "h".toList, none, 0, false⟩

/-- The sample active user and empty token table for the C5 counterexample. -/
def tokenUserSample : User := ⟨1, true⟩

/-- The sample store: one active user, no tokens. -/
def tokenDbSample : TokenDb := ⟨[tokenUserSample], []⟩

/-- The full token minted from the sample random bytes. -/
def apiTokenFullSample : List Char := "pc_".toList ++ b64UrlNoPad (List.range 32)

/-- The row `create_token` writes for the sample inputs with
`expires_in_days = 0`: no expiry, not revoked. -/
def apiTokenRowSample : ApiToken :=
  ⟨5, 1, "ci".toList, hash_value apiTokenFullSample, apiTokenFullSample.take 11,
    none, none, false, none⟩

/-- The store after the sample creation. -/
def tokenDbAfterSample : TokenDb := ⟨[tokenUserSample], [apiTokenRowSample]⟩

/-- Every stored row carrying hash `h` is revoked. -/
def hashRevokedInv (db : TokenDb) (h : List Char) : Prop :=
  ∀ t ∈ db.tokens, t.tokenHash = h → t.isRevoked = true

/-- Every stored row carrying id `tid` is revoked. -/
def idRevokedInv (db : TokenDb) (tid : Nat) : Prop :=
  ∀ t ∈ db.tokens, t.id = tid → t.isRevoked = true

/-- The owner on file for the C4 witness store. -/
def tokenOwnerW : User := ⟨1, true⟩

/-- The single unrevoked token row of the C4 witness store. -/
def apiTokenRowW : ApiToken :=
  ⟨1, 1, "w".toList, hash_value "pc_w".toList, "pc_w".toList, none, none, false, none⟩

/-- The C4 witness store before revocation. -/
def tokenDbW : TokenDb := ⟨[tokenOwnerW], [apiTokenRowW]⟩

/-- The C4 witness store after revocation. -/
def tokenDbWRevoked : TokenDb := ⟨[tokenOwnerW], [{ apiTokenRowW with isRevoked := true }]⟩

/-- The inactive owner of the C9 witness token. -/
def inactiveUserW : User := ⟨7, false⟩

/-- The valid-but-orphaned token row for the C9 witness. -/
def apiTokenRowW9 : ApiToken :=
  ⟨3, 7, "w9".toList, hash_value "pc_w9".toList, "pc_w9".toList, none, none, false, none⟩

/-- The C9 witness store: a valid token row owned by an inactive user. -/
def tokenDbW9 : TokenDb := ⟨[inactiveUserW], [apiTokenRowW9]⟩

/-- The C2 witness request: an authenticated `GET /api/v1/tenants`. -/
def reqW : Request := ⟨"GET".toList, "/api/v1/tenants".toList, some 1⟩

/-! ### Facts about the base64url encoder

`b64UrlNoPad` is injective on byte lists of equal length; this is what turns
"the recomputed PKCE challenge equals the stored one" into "the SHA-256
digests coincide". -/

theorem b64Char_toNat_lt128 (n : Nat) : (b64Char n).toNat < 128 := by
  by_cases h : n < 64
  · revert h
    revert n
    decide
  · unfold b64Char
    rw [List.getD_eq_default]
    · decide
    · simp only [not_lt] at h
      calc b64UrlAlphabet.length = 64 := by decide
        _ ≤ n := h

theorem b64Char_ne_pad (n : Nat) : b64Char n ≠ '=' := by
  by_cases h : n < 64
  · revert h
    revert n
    decide
  · unfold b64Char
    rw [List.getD_eq_default]
    · decide
    · simp only [not_lt] at h
      calc b64UrlAlphabet.length = 64 := by decide
        _ ≤ n := h

theorem b64Char_inj : ∀ m < 64, ∀ n < 64, b64Char m = b64Char n → m = n := by
  decide

set_option maxRecDepth 4000 in
theorem byte_shr2 : ∀ b < 256, b >>> 2 = b / 4 ∧ b >>> 2 < 64 := by decide

set_option maxRecDepth 4000 in
theorem byte_masks : ∀ b < 256,
    b &&& 3 = b % 4 ∧ b &&& 15 = b % 16 ∧ b &&& 63 = b % 64 ∧
      b >>> 4 = b / 16 ∧ b >>> 6 = b / 64 := by decide

theorem shl4_or : ∀ x < 4, ∀ y < 16, ((x <<< 4) ||| y) = x * 16 + y ∧ ((x <<< 4) ||| y) < 64 := by
  decide

theorem shl2_or : ∀ x < 16, ∀ y < 4, ((x <<< 2) ||| y) = x * 4 + y ∧ ((x <<< 2) ||| y) < 64 := by
  decide

set_option maxRecDepth 4000 in
theorem shl4_small : ∀ x < 4, x <<< 4 = x * 16 ∧ x <<< 4 < 64 := by decide

set_option maxRecDepth 4000 in
theorem shl2_small : ∀ x < 16, x <<< 2 = x * 4 ∧ x <<< 2 < 64 := by decide

theorem b64Group1_inj (b0 c0 : Nat) (hb0 : b0 < 256) (hc0 : c0 < 256)
    (h0 : b64Char (b0 >>> 2) = b64Char (c0 >>> 2))
    (h1 : b64Char ((b0 &&& 3) <<< 4) = b64Char ((c0 &&& 3) <<< 4)) :
    b0 = c0 := by
  obtain ⟨e1, l1⟩ := byte_shr2 b0 hb0
  obtain ⟨e2, l2⟩ := byte_shr2 c0 hc0
  obtain ⟨m1, -, -, -, -⟩ := byte_masks b0 hb0
  obtain ⟨m2, -, -, -, -⟩ := byte_masks c0 hc0
  obtain ⟨s1, sl1⟩ := shl4_small (b0 &&& 3) (by omega)
  obtain ⟨s2, sl2⟩ := shl4_small (c0 &&& 3) (by omega)
  have d0 := b64Char_inj _ l1 _ l2 h0
  have d1 := b64Char_inj _ sl1 _ sl2 h1
  rw [e1, e2] at d0
  rw [s1, s2, m1, m2] at d1
  omega

theorem b64Group2_inj (b0 b1 c0 c1 : Nat)
    (hb0 : b0 < 256) (hb1 : b1 < 256) (hc0 : c0 < 256) (hc1 : c1 < 256)
    (h0 : b64Char (b0 >>> 2) = b64Char (c0 >>> 2))
    (h1 : b64Char (((b0 &&& 3) <<< 4) ||| (b1 >>> 4)) =
      b64Char (((c0 &&& 3) <<< 4) ||| (c1 >>> 4)))
    (h2 : b64Char ((b1 &&& 15) <<< 2) = b64Char ((c1 &&& 15) <<< 2)) :
    b0 = c0 ∧ b1 = c1 := by
  obtain ⟨e1, l1⟩ := byte_shr2 b0 hb0
  obtain ⟨e2, l2⟩ := byte_shr2 c0 hc0
  obtain ⟨m1, n1, -, q1, -⟩ := byte_masks b0 hb0
  obtain ⟨m1', n1', -, q1', -⟩ := byte_masks b1 hb1
  obtain ⟨m2, n2, -, q2, -⟩ := byte_masks c0 hc0
  obtain ⟨m2', n2', -, q2', -⟩ := byte_masks c1 hc1
  obtain ⟨s1, sl1⟩ := shl4_or (b0 &&& 3) (by omega) (b1 >>> 4) (by omega)
  obtain ⟨s2, sl2⟩ := shl4_or (c0 &&& 3) (by omega) (c1 >>> 4) (by omega)
  obtain ⟨t1, tl1⟩ := shl2_small (b1 &&& 15) (by omega)
  obtain ⟨t2, tl2⟩ := shl2_small (c1 &&& 15) (by omega)
  have d0 := b64Char_inj _ l1 _ l2 h0
  have d1 := b64Char_inj _ sl1 _ sl2 h1
  have d2 := b64Char_inj _ tl1 _ tl2 h2
  rw [e1, e2] at d0
  rw [s1, s2, m1, m2, q1', q2'] at d1
  rw [t1, t2, n1', n2'] at d2
  omega

theorem b64Group3_inj (b0 b1 b2 c0 c1 c2 : Nat)
    (hb0 : b0 < 256) (hb1 : b1 < 256) (hb2 : b2 < 256)
    (hc0 : c0 < 256) (hc1 : c1 < 256) (hc2 : c2 < 256)
    (h0 : b64Char (b0 >>> 2) = b64Char (c0 >>> 2))
    (h1 : b64Char (((b0 &&& 3) <<< 4) ||| (b1 >>> 4)) =
      b64Char (((c0 &&& 3) <<< 4) ||| (c1 >>> 4)))
    (h2 : b64Char (((b1 &&& 15) <<< 2) ||| (b2 >>> 6)) =
      b64Char (((c1 &&& 15) <<< 2) ||| (c2 >>> 6)))
    (h3 : b64Char (b2 &&& 63) = b64Char (c2 &&& 63)) :
    b0 = c0 ∧ b1 = c1 ∧ b2 = c2 := by
  obtain ⟨e1, l1⟩ := byte_shr2 b0 hb0
  obtain ⟨e2, l2⟩ := byte_shr2 c0 hc0
  obtain ⟨m1, n1, o1, q1, r1⟩ := byte_masks b0 hb0
  obtain ⟨m1', n1', o1', q1', r1'⟩ := byte_masks b1 hb1
  obtain ⟨m1'', n1'', o1'', q1'', r1''⟩ := byte_masks b2 hb2
  obtain ⟨m2, n2, o2, q2, r2⟩ := byte_masks c0 hc0
  obtain ⟨m2', n2', o2', q2', r2'⟩ := byte_masks c1 hc1
  obtain ⟨m2'', n2'', o2'', q2'', r2''⟩ := byte_masks c2 hc2
  obtain ⟨s1, sl1⟩ := shl4_or (b0 &&& 3) (by omega) (b1 >>> 4) (by omega)
  obtain ⟨s2, sl2⟩ := shl4_or (c0 &&& 3) (by omega) (c1 >>> 4) (by omega)
  obtain ⟨t1, tl1⟩ := shl2_or (b1 &&& 15) (by omega) (b2 >>> 6) (by omega)
  obtain ⟨t2, tl2⟩ := shl2_or (c1 &&& 15) (by omega) (c2 >>> 6) (by omega)
  have d0 := b64Char_inj _ l1 _ l2 h0
  have d1 := b64Char_inj _ sl1 _ sl2 h1
  have d2 := b64Char_inj _ tl1 _ tl2 h2
  have d3 := b64Char_inj _ (by omega) _ (by omega) h3
  rw [e1, e2] at d0
  rw [s1, s2, m1, m2, q1', q2'] at d1
  rw [t1, t2, n1', n2', r1'', r2''] at d2
  rw [o1'', o2''] at d3
  omega

theorem b64Go_length : ∀ (f : Nat) (bs : List Nat), bs.length ≤ 3 * f →
    (b64Go f bs).length = 4 * ((bs.length + 2) / 3) := by
  intro f
  induction f with
  | zero =>
    intro bs h
    have : bs = [] := List.eq_nil_of_length_eq_zero (by omega)
    subst this
    rfl
  | succ n ih =>
    intro bs h
    match bs with
    | [] => rfl
    | [b0] => simp [b64Go]
    | [b0, b1] => simp [b64Go]
    | b0 :: b1 :: b2 :: rest =>
      have hlr : rest.length ≤ 3 * n := by simp at h; omega
      have hr := ih rest hlr
      simp only [b64Go, List.length_cons, hr]
      omega

theorem b64Go_inj : ∀ (f₁ f₂ : Nat) (bs₁ bs₂ : List Nat),
    (∀ b ∈ bs₁, b < 256) → (∀ b ∈ bs₂, b < 256) →
    bs₁.length = bs₂.length → bs₁.length ≤ 3 * f₁ → bs₂.length ≤ 3 * f₂ →
    b64Go f₁ bs₁ = b64Go f₂ bs₂ → bs₁ = bs₂ := by
  intro f₁
  induction f₁ with
  | zero =>
    intro f₂ bs₁ bs₂ _ _ hlen h₁ _ _
    have e₁ : bs₁ = [] := List.eq_nil_of_length_eq_zero (by omega)
    have e₂ : bs₂ = [] := List.eq_nil_of_length_eq_zero (by omega)
    rw [e₁, e₂]
  | succ n ih =>
    intro f₂ bs₁ bs₂ hb₁ hb₂ hlen h₁ h₂ heq
    match f₂ with
    | 0 =>
      have e₂ : bs₂ = [] := List.eq_nil_of_length_eq_zero (by omega)
      have e₁ : bs₁ = [] := List.eq_nil_of_length_eq_zero (by omega)
      rw [e₁, e₂]
    | m + 1 =>
      match bs₁, bs₂ with
      | [], [] => rfl
      | [b0], [c0] =>
        simp only [b64Go, List.cons.injEq, eq_self_iff_true, and_true, true_and] at heq
        obtain ⟨h0, h1⟩ := heq
        have := b64Group1_inj b0 c0 (hb₁ b0 (by simp)) (hb₂ c0 (by simp)) h0 h1
        rw [this]
      | [b0, b1], [c0, c1] =>
        simp only [b64Go, List.cons.injEq, eq_self_iff_true, and_true, true_and] at heq
        obtain ⟨h0, h1, h2⟩ := heq
        obtain ⟨r0, r1⟩ := b64Group2_inj b0 b1 c0 c1
          (hb₁ b0 (by simp)) (hb₁ b1 (by simp)) (hb₂ c0 (by simp)) (hb₂ c1 (by simp)) h0 h1 h2
        rw [r0, r1]
      | b0 :: b1 :: b2 :: r₁, c0 :: c1 :: c2 :: r₂ =>
        simp only [b64Go, List.cons.injEq] at heq
        obtain ⟨h0, h1, h2, h3, hrest⟩ := heq
        obtain ⟨r0, r1, r2⟩ := b64Group3_inj b0 b1 b2 c0 c1 c2
          (hb₁ b0 (by simp)) (hb₁ b1 (by simp)) (hb₁ b2 (by simp))
          (hb₂ c0 (by simp)) (hb₂ c1 (by simp)) (hb₂ c2 (by simp)) h0 h1 h2 h3
        have hr := ih m r₁ r₂
          (fun b hb => hb₁ b (by simp [hb])) (fun b hb => hb₂ b (by simp [hb]))
          (by simp at hlen; omega) (by simp at h₁; omega) (by simp at h₂; omega) hrest
        rw [r0, r1, r2, hr]
      -- mismatched shapes are impossible: the lengths agree
      | [], _ :: _ => simp at hlen
      | _ :: _, [] => simp at hlen
      | [b0], _ :: _ :: _ => simp at hlen
      | _ :: _ :: _, [c0] => simp at hlen
      | [b0, b1], _ :: _ :: _ :: _ => simp at hlen
      | _ :: _ :: _ :: _, [c0, c1] => simp at hlen

theorem rstripEq_append (s : List Char) :
    s = rstripEq s ++ List.replicate (s.length - (rstripEq s).length) '=' := by
  have hsplit :=
    (List.takeWhile_append_dropWhile (p := fun c : Char => c == '=') (l := s.reverse)).symm
  have htake : List.takeWhile (fun c : Char => c == '=') s.reverse =
      List.replicate (List.takeWhile (fun c : Char => c == '=') s.reverse).length '=' := by
    apply List.eq_replicate_of_mem
    intro c hc
    simpa [beq_iff_eq] using List.mem_takeWhile_imp hc
  have hs : s = (List.dropWhile (fun c : Char => c == '=') s.reverse).reverse ++
      (List.takeWhile (fun c : Char => c == '=') s.reverse).reverse := by
    have h := congrArg List.reverse hsplit
    simpa only [List.reverse_reverse, List.reverse_append] using h
  have hlen : s.length = (List.takeWhile (fun c : Char => c == '=') s.reverse).length +
      (List.dropWhile (fun c : Char => c == '=') s.reverse).length := by
    have h := congrArg List.length hsplit
    simpa only [List.length_reverse, List.length_append] using h
  rw [rstripEq]
  nth_rewrite 1 [hs]
  congr 1
  rw [htake]
  simp only [List.reverse_replicate]
  congr 1
  simp only [List.length_reverse]
  omega

theorem rstripEq_cancel (s₁ s₂ : List Char) (hl : s₁.length = s₂.length)
    (h : rstripEq s₁ = rstripEq s₂) : s₁ = s₂ := by
  have h₁ := rstripEq_append s₁
  have h₂ := rstripEq_append s₂
  rw [h₁, h₂, h]
  congr 2
  have hle₁ : (rstripEq s₁).length ≤ s₁.length := by
    conv_rhs => rw [h₁]
    simp
  rw [h] at hle₁
  omega

/-- `b64UrlNoPad` is injective on byte lists of equal length. -/
theorem b64UrlNoPad_inj (bs₁ bs₂ : List Nat)
    (hb₁ : ∀ b ∈ bs₁, b < 256) (hb₂ : ∀ b ∈ bs₂, b < 256)
    (hl : bs₁.length = bs₂.length)
    (h : b64UrlNoPad bs₁ = b64UrlNoPad bs₂) : bs₁ = bs₂ := by
  have hf₁ : bs₁.length ≤ 3 * (bs₁.length / 3 + 1) := by omega
  have hf₂ : bs₂.length ≤ 3 * (bs₂.length / 3 + 1) := by omega
  have hlen₁ := b64Go_length (bs₁.length / 3 + 1) bs₁ hf₁
  have hlen₂ := b64Go_length (bs₂.length / 3 + 1) bs₂ hf₂
  have hpad : b64UrlEncode bs₁ = b64UrlEncode bs₂ := by
    apply rstripEq_cancel
    · rw [b64UrlEncode, b64UrlEncode, hlen₁, hlen₂, hl]
    · exact h
  exact b64Go_inj _ _ _ _ hb₁ hb₂ hl hf₁ hf₂ hpad

theorem b64Go_chars : ∀ (f : Nat) (bs : List Nat) (c : Char), c ∈ b64Go f bs →
    (∃ n, c = b64Char n) ∨ c = '=' := by
  intro f
  induction f with
  | zero => intro bs c hc; simp [b64Go] at hc
  | succ n ih =>
    intro bs c hc
    match bs with
    | [] => simp [b64Go] at hc
    | [b0] =>
      simp only [b64Go, List.mem_cons, List.mem_singleton] at hc
      rcases hc with h | h | h | h
      · exact .inl ⟨_, h⟩
      · exact .inl ⟨_, h⟩
      · exact .inr h
      · simp at h; exact .inr h
    | [b0, b1] =>
      simp only [b64Go, List.mem_cons, List.mem_singleton] at hc
      rcases hc with h | h | h | h
      · exact .inl ⟨_, h⟩
      · exact .inl ⟨_, h⟩
      · exact .inl ⟨_, h⟩
      · simp at h; exact .inr h
    | b0 :: b1 :: b2 :: rest =>
      simp only [b64Go, List.mem_cons] at hc
      rcases hc with h | h | h | h | h
      · exact .inl ⟨_, h⟩
      · exact .inl ⟨_, h⟩
      · exact .inl ⟨_, h⟩
      · exact .inl ⟨_, h⟩
      · exact ih rest c h

/-- The verifier produced by `generate_pkce_challenge` is pure ASCII, so its
`encode("ascii")` never raises. -/
theorem asciiOk_b64UrlNoPad (bs : List Nat) : asciiOk (b64UrlNoPad bs) = true := by
  rw [asciiOk, List.all_eq_true]
  intro c hc
  have hmem : c ∈ b64UrlEncode bs := by
    have h₁ : c ∈ (b64UrlEncode bs).reverse.dropWhile (fun x => x == '=') := by
      simpa [b64UrlNoPad, rstripEq] using hc
    have h₂ := (List.dropWhile_sublist (fun x : Char => x == '=')
      (l := (b64UrlEncode bs).reverse)).subset h₁
    simpa using h₂
  rcases b64Go_chars _ _ _ hmem with ⟨n, hn⟩ | hn
  · subst hn
    simpa using b64Char_toNat_lt128 n
  · subst hn
    decide

/-! ### Shape facts about SHA-256: 32 output bytes, each below 256 -/

theorem sha256Round_length (st : List Nat) (kw : Nat × Nat) :
    (sha256Round st kw).length = 8 := rfl

theorem foldl_sha256Round_length : ∀ (l : List (Nat × Nat)) (st : List Nat),
    st.length = 8 → (l.foldl sha256Round st).length = 8
  | [], _, h => h
  | kw :: l, st, _ =>
    foldl_sha256Round_length l (sha256Round st kw) (sha256Round_length st kw)

theorem sha256Chunk_length (h c : List Nat) (hh : h.length = 8) :
    (sha256Chunk h c).length = 8 := by
  have hst := foldl_sha256Round_length
    (sha256K.zip (sha256Schedule 48 (bytesToWordsBE 16 c).reverse)) h hh
  simp [sha256Chunk, List.length_zip, hh, hst]

theorem foldl_sha256Chunk_length : ∀ (cs : List (List Nat)) (h : List Nat),
    h.length = 8 → (cs.foldl sha256Chunk h).length = 8
  | [], _, hh => hh
  | c :: cs, h, hh =>
    foldl_sha256Chunk_length cs (sha256Chunk h c) (sha256Chunk_length h c hh)

theorem foldr_wordBytes_length (l : List Nat) :
    (l.foldr (fun w acc => wordToBytesBE w ++ acc) []).length = 4 * l.length := by
  induction l with
  | nil => rfl
  | cons w l ih =>
    simp only [List.foldr_cons, List.length_append, ih, List.length_cons]
    have h4 : (wordToBytesBE w).length = 4 := rfl
    omega

theorem sha256_length (msg : List Nat) : (sha256 msg).length = 32 := by
  simp only [sha256]
  rw [foldr_wordBytes_length, foldl_sha256Chunk_length _ _ (by rfl)]

theorem mem_wordToBytesBE (b w : Nat) (h : b ∈ wordToBytesBE w) : b < 256 := by
  simp only [wordToBytesBE, List.mem_cons, List.not_mem_nil, or_false] at h
  rcases h with h | h | h | h <;> subst h <;> exact Nat.mod_lt _ (by omega)

theorem foldr_wordBytes_lt (l : List Nat) :
    ∀ b ∈ l.foldr (fun w acc => wordToBytesBE w ++ acc) [], b < 256 := by
  induction l with
  | nil => intro b hb; simp at hb
  | cons w l ih =>
    intro b hb
    simp only [List.foldr_cons, List.mem_append] at hb
    rcases hb with hb | hb
    · exact mem_wordToBytesBE b w hb
    · exact ih b hb

theorem sha256_bytes_lt (msg : List Nat) : ∀ b ∈ sha256 msg, b < 256 := by
  intro b hb
  simp only [sha256] at hb
  exact foldr_wordBytes_lt _ b hb

/-- **C10** (amended claim): for every random input, a pair produced by
`generate_pkce_challenge` round-trips — `verify_pkce_challenge` on the
verifier and its challenge returns `True`; a candidate verifier containing a
non-ASCII character (as a single-character mutation can) makes `verify`
raise `UnicodeEncodeError` instead of returning `False`; and an all-ASCII
candidate verifies against the challenge exactly when its SHA-256 digest
coincides with the original verifier's. -/
theorem pkce_verify_spec (randomBytes : List Nat) :
    verify_pkce_challenge (generate_pkce_challenge randomBytes).codeVerifier
      (generate_pkce_challenge randomBytes).codeChallenge = some true
    ∧ (∀ m : List Char, asciiOk m = false →
        verify_pkce_challenge m (generate_pkce_challenge randomBytes).codeChallenge = none)
    ∧ (∀ m : List Char, asciiOk m = true →
        (verify_pkce_challenge m (generate_pkce_challenge randomBytes).codeChallenge = some true ↔
          sha256 (m.map Char.toNat) =
            sha256 ((generate_pkce_challenge randomBytes).codeVerifier.map Char.toNat))) := by
  refine ⟨?_, ?_, ?_⟩
  · simp [verify_pkce_challenge, asciiEncode, generate_pkce_challenge,
      asciiOk_b64UrlNoPad]
  · intro m hm
    simp [verify_pkce_challenge, asciiEncode, hm]
  · intro m hm
    simp only [verify_pkce_challenge, asciiEncode, hm, if_true, generate_pkce_challenge]
    constructor
    · intro h
      simp only [Option.some.injEq, beq_iff_eq] at h
      exact b64UrlNoPad_inj _ _ (sha256_bytes_lt _) (sha256_bytes_lt _)
        (by rw [sha256_length, sha256_length]) h
    · intro h
      rw [h]
      simp

/-- **C10** (counterexample to the claim as stated): mutating one character
of a generated verifier to `é` yields a single-character mutation for which
`verify_pkce_challenge` does not return `False` — `code_verifier.encode("ascii")`
raises `UnicodeEncodeError` (modelled as `none`). -/
theorem pkce_mutation_counterexample :
    singleCharMutation pkceMutSample (generate_pkce_challenge pkceRndSample).codeVerifier = true
    ∧ verify_pkce_challenge pkceMutSample (generate_pkce_challenge pkceRndSample).codeChallenge
        = none := by
  refine ⟨by decide, ?_⟩
  rfl

/-- **C7** (confirmed): signed-token round trip.  Decoding a freshly created
access token yields a payload with `sub = str(u)` and `type = "access"`
(shown as the full payload); likewise for refresh tokens with
`type = "refresh"`; and cross-type verification — `verify_access_token` on a
refresh token or `verify_refresh_token` on an access token — returns `None`
at every verification time and for every expiry delta. -/
theorem jwt_round_trip_spec (S : JwtSettings) (u : Nat) (now : Int) (jti : List Char)
    (hacc : 0 < S.jwtAccessTokenExpireMinutes)
    (href : 0 < S.jwtRefreshTokenExpireDays) :
    (decode_token S (create_access_token S u none now) now =
      some ⟨pyStr u, now + S.jwtAccessTokenExpireMinutes * 60, now, "access".toList, none⟩)
    ∧ (decode_token S (create_refresh_token S u none jti now).1 now =
      some ⟨pyStr u, now + S.jwtRefreshTokenExpireDays * 86400, now, "refresh".toList, some jti⟩)
    ∧ (∀ delta now', verify_access_token S (create_refresh_token S u delta jti now).1 now' = none)
    ∧ (∀ delta now', verify_refresh_token S (create_access_token S u delta now) now' = none) := by
  refine ⟨?_, ?_, ?_, ?_⟩
  · have h1 : ¬ (now + S.jwtAccessTokenExpireMinutes * 60 ≤ now) := by omega
    simp [create_access_token, decode_token, h1]
  · have h1 : ¬ (now + S.jwtRefreshTokenExpireDays * 86400 ≤ now) := by omega
    simp [create_refresh_token, decode_token, h1]
  · intro delta now'
    simp only [create_refresh_token, verify_access_token, decode_token, ne_eq,
      not_true_eq_false, if_false]
    split
    · next payload heq =>
      split at heq
      · simp at heq
      · simp only [Option.some.injEq] at heq
        subst heq
        have hty : ("refresh".toList == "access".toList) = false := by decide
        simp [hty]
    · rfl
  · intro delta now'
    simp only [create_access_token, verify_refresh_token, decode_token, ne_eq,
      not_true_eq_false, if_false]
    split
    · next payload heq =>
      split at heq
      · simp at heq
      · simp only [Option.some.injEq] at heq
        subst heq
        have hty : ("access".toList == "refresh".toList) = false := by decide
        simp [hty]
    · rfl

/-- **C8** (counterexample to the claim as stated): a well-formed access
token signed with the configured secret whose `exp` (0) has passed at decode
time (5) and a structurally invalid token both decode to the very same
`None` — the caller cannot distinguish the two outcomes. -/
theorem decode_token_collapse_counterexample :
    decode_token jwtSampleSettings jwtExpiredSample 5 = none
    ∧ decode_token jwtSampleSettings (JwtWire.malformed "not-a-jwt".toList) 5 = none := by
  exact ⟨rfl, rfl⟩

/-- **C8** (amended claim): `decode_token` collapses the expired-signature
case and the structurally-invalid case to the same `None`
(`ExpiredSignatureError` and `InvalidTokenError` are caught by separate
`except` arms that both `return None`), so the two are not distinguishable
from the result. -/
theorem decode_token_invalid_spec (S : JwtSettings) (now : Int) :
    (∀ (claims : TokenPayload) (key : List Char), key = S.jwtSecretKey → claims.exp ≤ now →
      decode_token S (.signed claims key) now = none)
    ∧ (∀ raw, decode_token S (.malformed raw) now = none) := by
  constructor
  · intro claims key hkey hexp
    simp [decode_token, hkey, hexp]
  · intro raw
    rfl

/-- **C6** (counterexample to the claim as stated): for a non-revoked
session observed exactly at its expiry instant (`now = expires_at = 0`),
`Session.is_valid` is `true` — it is not equivalent to
"not revoked and now strictly before expires_at". -/
theorem session_boundary_counterexample :
    ¬ (sessionBoundarySample.is_valid 0 = true ↔
        (sessionBoundarySample.isRevoked = false ∧ (0 : Int) < sessionBoundarySample.expiresAt)) := by
  decide

/-- **C6** (amended claim): `Session.is_valid` holds iff the session is not
revoked and `now ≤ expires_at` (the code tests `now > expires_at`, so the
boundary instant counts as valid), while `SessionRepository.get_valid_session`
finds a session iff a row matches the hash, is not revoked and
`expires_at > now` (boundary invalid); the two readers disagree exactly at
`now = expires_at`. -/
theorem session_validity_spec (s : Session) (now : Int)
    (sessions : List Session) (tokenHash : List Char) :
    (s.is_valid now = true ↔ (s.isRevoked = false ∧ now ≤ s.expiresAt))
    ∧ ((get_valid_session sessions tokenHash now).isSome ↔
        ∃ s' ∈ sessions, s'.accessTokenHash = tokenHash ∧ s'.isRevoked = false ∧
          now < s'.expiresAt) := by
  constructor
  · cases hr : s.isRevoked <;> simp [Session.is_valid, Session.is_expired, hr]
  · rw [get_valid_session, List.find?_isSome]
    constructor
    · rintro ⟨s', hmem, hp⟩
      simp only [Bool.and_eq_true, beq_iff_eq, decide_eq_true_eq] at hp
      exact ⟨s', hmem, hp.1.1, hp.1.2, hp.2⟩
    · rintro ⟨s', hmem, h1, h2, h3⟩
      refine ⟨s', hmem, ?_⟩
      simp [h1, h2, h3]

/-- **C2** (confirmed): the default RBAC enforcement point is annotate-only —
`RBACMiddleware.dispatch` returns the downstream handler's response unchanged
for every request (it only records the required permission on the request
state) and never itself produces a 403; only `StrictRBACMiddleware.dispatch`
blocks, returning the 403 permission-denied response whenever RBAC is enabled
and the permission check fails. -/
theorem rbac_middleware_spec :
    (∀ (req : Request) (callNext : Request → Response),
      (rbacMiddlewareDispatch req callNext).1 = callNext req)
    ∧ (∀ (req : Request) (callNext : Request → Response) (env : Environment)
        (chk : Nat → Nat → List Char → List Char → Bool)
        (userId : Nat) (action level : List Char),
        req.stateUserId = some userId →
        getRequiredPermission req.method req.path = some (action, level) →
        env.rbacEnabled = true →
        chk userId env.id action level = false →
        strictRbacMiddlewareDispatch req callNext (some env) chk =
          permissionDeniedResponse action level)
    ∧ (∀ action level, (permissionDeniedResponse action level).statusCode = 403) := by
  refine ⟨?_, ?_, fun _ _ => rfl⟩
  · intro req callNext
    cases hu : req.stateUserId with
    | none => simp [rbacMiddlewareDispatch, hu]
    | some userId =>
      cases hp : getRequiredPermission req.method req.path with
      | none => simp [rbacMiddlewareDispatch, hu, hp]
      | some pair => simp [rbacMiddlewareDispatch, hu, hp]
  · intro req callNext env chk userId action level hu hp he hc
    simp [strictRbacMiddlewareDispatch, hu, hp, he, hc]

/-- **C9** (confirmed): `validate_token` treats a token as invalid whenever
the resolved user is missing or inactive — for every store and token whose
row lookup succeeds (unrevoked, unexpired), if no stored user with the
owning id is active, the result is `None` rather than the `(user, record)`
pair. -/
theorem validate_token_inactive_user_spec (db : TokenDb) (token : List Char) (now : Int)
    (t : ApiToken)
    (hmatch : get_valid_token db (hash_value token) now = some t)
    (huser : ∀ u ∈ db.users, u.id = t.userId → u.isActive = false) :
    (validate_token db token now).1 = none := by
  simp only [validate_token, hmatch]
  cases hu : userGetById (update_last_used db t.id now) t.userId with
  | none => simp
  | some user =>
    have hu' : db.users.find? (fun u => u.id == t.userId) = some user := hu
    have hmem := List.mem_of_find?_eq_some hu'
    have hpred := List.find?_some hu'
    simp only [beq_iff_eq] at hpred
    have hina : user.isActive = false := huser user hmem hpred
    simp [hina]

/-- **C5** (amended claim): an API token created with `expires_in_days = 0`
gets `expires_at = None` — `create_token` tests `if expires_in_days:` and
Python's `0` is falsy, so immediate expiry is silently turned into "never
expires" — and `validate_token` ACCEPTS the token (at any later time) while
it is unrevoked and its user active, rather than rejecting it. -/
theorem create_token_zero_days_spec (db : TokenDb) (uid newId : Nat) (name : List Char)
    (sc : Option (List (List Char))) (rnd : List Nat) (now now' : Int) (user : User)
    (hu : userGetById db uid = some user) (hact : user.isActive = true)
    (hfresh : ∀ t ∈ db.tokens, t.tokenHash ≠ hash_value ("pc_".toList ++ b64UrlNoPad rnd)) :
    ∃ (fullToken : List Char) (tok : ApiToken) (db' : TokenDb),
      create_token db uid name (some 0) sc rnd newId now = .ok (fullToken, tok, db')
      ∧ tok.isRevoked = false ∧ tok.expiresAt = none
      ∧ (validate_token db' fullToken now').1 =
          some (user, { tok with lastUsedAt := some now' }) := by
  refine ⟨"pc_".toList ++ b64UrlNoPad rnd,
    ⟨newId, uid, name, hash_value ("pc_".toList ++ b64UrlNoPad rnd),
      List.take 11 ("pc_".toList ++ b64UrlNoPad rnd), none, none, false, sc⟩,
    ⟨db.users, db.tokens ++
      [⟨newId, uid, name, hash_value ("pc_".toList ++ b64UrlNoPad rnd),
        List.take 11 ("pc_".toList ++ b64UrlNoPad rnd), none, none, false, sc⟩]⟩,
    ?_, rfl, rfl, ?_⟩
  · simp only [create_token, hu]
    rw [if_neg (by simp [hact])]
    rfl
  · rw [validate_token]
    have hnone : db.tokens.find? (fun t =>
        t.tokenHash == hash_value ("pc_".toList ++ b64UrlNoPad rnd) && t.isRevoked == false &&
          (match t.expiresAt with
           | some e => decide (e > now')
           | none => true)) = none := by
      rw [List.find?_eq_none]
      intro x hx
      simp only [Bool.and_eq_true, beq_iff_eq, not_and]
      intro hxh
      exact absurd hxh.1 (hfresh x hx)
    have hhash : get_valid_token
        ⟨db.users, db.tokens ++
          [⟨newId, uid, name, hash_value ("pc_".toList ++ b64UrlNoPad rnd),
            List.take 11 ("pc_".toList ++ b64UrlNoPad rnd), none, none, false, sc⟩]⟩
        (hash_value ("pc_".toList ++ b64UrlNoPad rnd)) now' =
        some ⟨newId, uid, name, hash_value ("pc_".toList ++ b64UrlNoPad rnd),
          List.take 11 ("pc_".toList ++ b64UrlNoPad rnd), none, none, false, sc⟩ := by
      rw [get_valid_token]
      show List.find? _ (db.tokens ++ _) = _
      rw [List.find?_append, hnone, Option.none_or]
      simp
    rw [hhash]
    dsimp only [update_last_used, userGetById]
    have hu3 : db.users.find? (fun u => u.id == uid) = some user := hu
    rw [hu3]
    simp [hact]

set_option maxRecDepth 100000 in
/-- **C5** (counterexample to the claim as stated): creating a token with
`expires_in_days = 0` for an active user stores a row with
`expires_at = None` and `is_revoked = False`, and `validate_token` then
returns the `(user, record)` pair — it does not reject the token. -/
theorem create_token_zero_days_counterexample :
    create_token tokenDbSample 1 "ci".toList (some 0) none (List.range 32) 5 1000 =
      .ok (apiTokenFullSample, apiTokenRowSample, tokenDbAfterSample)
    ∧ apiTokenRowSample.isRevoked = false
    ∧ (validate_token tokenDbAfterSample apiTokenFullSample 999999999).1 =
        some (tokenUserSample, { apiTokenRowSample with lastUsedAt := some 999999999 }) := by
  refine ⟨rfl, rfl, ?_⟩
  rw [validate_token]
  have hhash : get_valid_token tokenDbAfterSample (hash_value apiTokenFullSample) 999999999 =
      some apiTokenRowSample := by
    rw [get_valid_token]
    show List.find? _ [apiTokenRowSample] = _
    rw [List.find?_cons_of_pos]
    simp [apiTokenRowSample]
  rw [hhash]
  rfl

/-! ### Revocation invariants for the API-token store -/

theorem invs_map (db : TokenDb) (h : List Char) (tid : Nat) (f : ApiToken → ApiToken)
    (hH : hashRevokedInv db h) (hI : idRevokedInv db tid)
    (hf : ∀ t, (f t).tokenHash = t.tokenHash ∧ (f t).id = t.id ∧
      ((f t).isRevoked = t.isRevoked ∨ (f t).isRevoked = true)) :
    hashRevokedInv ⟨db.users, db.tokens.map f⟩ h ∧
      idRevokedInv ⟨db.users, db.tokens.map f⟩ tid := by
  constructor
  · intro x hx hxh
    obtain ⟨a, ha, rfl⟩ := List.mem_map.mp hx
    obtain ⟨h1, -, h3⟩ := hf a
    rcases h3 with h3 | h3
    · rw [h3]
      exact hH a ha (by rw [← h1]; exact hxh)
    · exact h3
  · intro x hx hxi
    obtain ⟨a, ha, rfl⟩ := List.mem_map.mp hx
    obtain ⟨-, h2, h3⟩ := hf a
    rcases h3 with h3 | h3
    · rw [h3]
      exact hI a ha (by rw [← h2]; exact hxi)
    · exact h3

theorem invs_filter (db : TokenDb) (h : List Char) (tid : Nat) (p : ApiToken → Bool)
    (hH : hashRevokedInv db h) (hI : idRevokedInv db tid) :
    hashRevokedInv ⟨db.users, db.tokens.filter p⟩ h ∧
      idRevokedInv ⟨db.users, db.tokens.filter p⟩ tid := by
  constructor
  · intro x hx hxh
    exact hH x (List.mem_of_mem_filter hx) hxh
  · intro x hx hxi
    exact hI x (List.mem_of_mem_filter hx) hxi

theorem invs_update_last_used (db : TokenDb) (h : List Char) (tid tkId : Nat) (now : Int)
    (hH : hashRevokedInv db h) (hI : idRevokedInv db tid) :
    hashRevokedInv (update_last_used db tkId now) h ∧
      idRevokedInv (update_last_used db tkId now) tid := by
  apply invs_map db h tid _ hH hI
  intro t
  by_cases hb : (t.id == tkId) = true <;> simp [update_last_used, hb]

theorem invs_revokeById (db : TokenDb) (h : List Char) (tid rid : Nat)
    (hH : hashRevokedInv db h) (hI : idRevokedInv db tid) :
    hashRevokedInv (revokeById db rid) h ∧ idRevokedInv (revokeById db rid) tid := by
  apply invs_map db h tid _ hH hI
  intro t
  by_cases hb : (t.id == rid) = true <;> simp [revokeById, hb]

/-- `validate_token`'s state effect is either nothing or a last-used update. -/
theorem validate_token_snd (db : TokenDb) (t : List Char) (now : Int) :
    (validate_token db t now).2 = db ∨
      ∃ tkId, (validate_token db t now).2 = update_last_used db tkId now := by
  rw [validate_token]
  cases get_valid_token db (hash_value t) now with
  | none => left; rfl
  | some tk =>
    right
    refine ⟨tk.id, ?_⟩
    dsimp only
    cases userGetById (update_last_used db tk.id now) tk.userId with
    | none => rfl
    | some u =>
      by_cases hact : u.isActive <;> simp [hact]

/-- `revoke_token`'s state effect is either nothing or a revocation. -/
theorem revoke_token_snd (db : TokenDb) (tid uid : Nat) :
    (revoke_token db tid uid).2 = db ∨ (revoke_token db tid uid).2 = revokeById db tid := by
  rw [revoke_token]
  cases tokenGetById db tid with
  | none => left; rfl
  | some tok =>
    by_cases hown : tok.userId ≠ uid
    · left; simp [hown]
    · right; simp [hown]

theorem tokenStep_preserves (db : TokenDb) (h : List Char) (tid : Nat) (op : TokenOp)
    (hop : opAvoids h tid op)
    (hH : hashRevokedInv db h) (hI : idRevokedInv db tid) :
    hashRevokedInv (tokenStep db op) h ∧ idRevokedInv (tokenStep db op) tid := by
  cases op with
  | createOp u n e sc rb newId now =>
    obtain ⟨hhash, hid⟩ := hop
    simp only [tokenStep]
    cases hc : create_token db u n e sc rb newId now with
    | error msg => exact ⟨hH, hI⟩
    | ok r =>
      dsimp only
      simp only [create_token] at hc
      cases hu : userGetById db u with
      | none => rw [hu] at hc; simp at hc
      | some user =>
        rw [hu] at hc
        dsimp only at hc
        by_cases hact : user.isActive
        · rw [if_neg (by simp [hact])] at hc
          simp only [generate_api_token, Except.ok.injEq] at hc
          rw [← hc]
          dsimp only
          constructor
          · intro x hx hxh
            simp only [List.mem_append, List.mem_singleton] at hx
            rcases hx with hx | hx
            · exact hH x hx hxh
            · subst hx
              exact absurd hxh hhash
          · intro x hx hxi
            simp only [List.mem_append, List.mem_singleton] at hx
            rcases hx with hx | hx
            · exact hI x hx hxi
            · subst hx
              exact absurd hxi hid
        · rw [if_pos (by simp [hact])] at hc
          simp at hc
  | validateOp t now =>
    simp only [tokenStep]
    rcases validate_token_snd db t now with hs | ⟨tkId, hs⟩
    · rw [hs]; exact ⟨hH, hI⟩
    · rw [hs]; exact invs_update_last_used db h tid tkId now hH hI
  | revokeOp rtid ruid =>
    simp only [tokenStep]
    rcases revoke_token_snd db rtid ruid with hs | hs
    · rw [hs]; exact ⟨hH, hI⟩
    · rw [hs]; exact invs_revokeById db h tid rtid hH hI
  | revokeAllOp uid =>
    simp only [tokenStep, revoke_all_user_tokens]
    apply invs_map db h tid _ hH hI
    intro t
    by_cases hb : t.userId = uid ∧ t.isRevoked = false <;> simp [hb]
  | deleteOp dtid duid =>
    simp only [tokenStep, delete_token]
    cases hg : tokenGetById db dtid with
    | none => exact ⟨hH, hI⟩
    | some tok =>
      dsimp only
      by_cases hown : tok.userId ≠ duid
      · rw [if_pos hown]
        exact ⟨hH, hI⟩
      · rw [if_neg hown]
        exact invs_filter db h tid _ hH hI

theorem runOps_preserves : ∀ (ops : List TokenOp) (db : TokenDb) (h : List Char) (tid : Nat),
    (∀ op ∈ ops, opAvoids h tid op) → hashRevokedInv db h → idRevokedInv db tid →
    hashRevokedInv (runOps db ops) h ∧ idRevokedInv (runOps db ops) tid
  | [], _, _, _, _, hH, hI => ⟨hH, hI⟩
  | op :: ops, db, h, tid, hops, hH, hI => by
    obtain ⟨hH', hI'⟩ := tokenStep_preserves db h tid op (hops op (by simp)) hH hI
    exact runOps_preserves ops (tokenStep db op) h tid
      (fun o ho => hops o (by simp [ho])) hH' hI'

theorem validate_none_of_hashRevoked (db : TokenDb) (pt : List Char) (now : Int)
    (hinv : hashRevokedInv db (hash_value pt)) : (validate_token db pt now).1 = none := by
  rw [validate_token]
  cases hg : get_valid_token db (hash_value pt) now with
  | none => rfl
  | some tk =>
    exfalso
    rw [get_valid_token] at hg
    have hpred := List.find?_some hg
    have hmem := List.mem_of_find?_eq_some hg
    simp only [Bool.and_eq_true, beq_iff_eq] at hpred
    have hrevoked := hinv tk hmem hpred.1.1
    rw [hpred.1.2] at hrevoked
    exact Bool.false_ne_true hrevoked

/-- **C4** (confirmed): token revocation is monotonic and idempotent.  After
`revoke_token(id, owner)` succeeds on a store where `id` is the only row
carrying the token's hash, then under any further sequence of service
operations that does not mint a colliding token hash nor reuse the row id:
every `validate_token` call with the token's plaintext returns `None`, every
surviving row with that id still has its revoked flag set (no operation
clears it), and revoking the already-revoked owned token again still returns
`True`. -/
theorem revoke_token_monotonic_spec (db : TokenDb) (tid uid : Nat) (t : ApiToken)
    (db' : TokenDb)
    (hget : tokenGetById db tid = some t)
    (hrev : revoke_token db tid uid = (true, db'))
    (huniq : ∀ t' ∈ db.tokens, t'.tokenHash = t.tokenHash → t'.id = tid)
    (ops : List TokenOp) (hops : ∀ op ∈ ops, opAvoids t.tokenHash tid op) :
    (∀ pt now, hash_value pt = t.tokenHash →
      (validate_token (runOps db' ops) pt now).1 = none)
    ∧ (∀ t' ∈ (runOps db' ops).tokens, t'.id = tid → t'.isRevoked = true)
    ∧ (revoke_token db' tid uid).1 = true := by
  simp only [revoke_token, hget] at hrev
  have htid : t.id = tid := by
    rw [tokenGetById] at hget
    simpa using List.find?_some hget
  by_cases hown : t.userId ≠ uid
  · rw [if_pos hown] at hrev
    simp at hrev
  · rw [if_neg hown] at hrev
    simp only [not_not] at hown
    have hdb' : db' = revokeById db tid := by
      have := congrArg Prod.snd hrev
      simpa using this.symm
    subst hdb'
    have hH : hashRevokedInv (revokeById db tid) t.tokenHash := by
      intro x hx hxh
      simp only [revokeById, List.mem_map] at hx
      obtain ⟨a, ha, rfl⟩ := hx
      by_cases hb : (a.id == tid) = true
      · simp [hb]
      · exfalso
        have hah : a.tokenHash = t.tokenHash := by
          revert hxh
          simp [hb]
        exact hb (beq_iff_eq.mpr (huniq a ha hah))
    have hI : idRevokedInv (revokeById db tid) tid := by
      intro x hx hxi
      simp only [revokeById, List.mem_map] at hx
      obtain ⟨a, ha, rfl⟩ := hx
      by_cases hb : (a.id == tid) = true
      · simp [hb]
      · exfalso
        have hai : a.id = tid := by
          revert hxi
          simp [hb]
        exact hb (beq_iff_eq.mpr hai)
    obtain ⟨hHr, hIr⟩ := runOps_preserves ops (revokeById db tid) t.tokenHash tid hops hH hI
    refine ⟨?_, hIr, ?_⟩
    · intro pt now hpt
      apply validate_none_of_hashRevoked
      rw [hpt]
      exact hHr
    · have hfind : tokenGetById (revokeById db tid) tid =
          some { t with isRevoked := true } := by
        rw [tokenGetById, revokeById]
        show List.find? _ (db.tokens.map _) = _
        rw [List.find?_map]
        have hcomp : ((fun x : ApiToken => x.id == tid) ∘
            (fun x : ApiToken => if x.id == tid then { x with isRevoked := true } else x)) =
            fun x : ApiToken => x.id == tid := by
          funext a
          by_cases hb : a.id = tid <;> simp [hb]
        rw [hcomp]
        rw [show db.tokens.find? (fun x => x.id == tid) = some t from hget]
        simp [htid]
      rw [revoke_token, hfind]
      dsimp only
      rw [if_neg (by simp [hown])]

/-- **C3** (confirmed): for every pattern `p` ending in `/*` and every
resource path `r`, `matches_resource` accepts iff `r` equals the prefix
(`p` minus `/*`) or starts with that prefix followed by `/` — in particular
the container itself is covered. -/
theorem matches_resource_slash_star_spec (p r : List Char)
    (h : pyEndsWith p ['/', '*'] = true) :
    matches_resource (some p) r = true ↔
      (r = pyDropLast 2 p ∨ pyStartsWith r (pyDropLast 2 p ++ ['/']) = true) := by
  obtain ⟨stem, hp⟩ := List.isSuffixOf_iff_suffix.mp h
  subst hp
  have hdrop : pyDropLast 2 (stem ++ ['/', '*']) = stem := by
    simp [pyDropLast]
  rw [hdrop]
  by_cases hpr : stem ++ ['/', '*'] = r
  · subst hpr
    simp only [matches_resource, beq_self_eq_true, if_true, true_iff]
    right
    have hsplit : stem ++ ['/', '*'] = (stem ++ ['/']) ++ ['*'] := by simp
    rw [pyStartsWith, hsplit, List.isPrefixOf_iff_prefix]
    exact List.prefix_append _ _
  · have hbeq : (stem ++ ['/', '*'] == r) = false := by
      simp [beq_eq_false_iff_ne, hpr]
    have hsuf : pyEndsWith (stem ++ ['/', '*']) ['/', '*'] = true :=
      List.isSuffixOf_iff_suffix.mpr ⟨stem, rfl⟩
    simp only [matches_resource, hbeq, Bool.false_eq_true, if_false, hsuf, if_true, hdrop]
    simp [Bool.or_eq_true, beq_iff_eq, or_comm]

/-- **C1** (confirmed): `check_permission` fails closed.  With zero
RolePermission rows matching the join (through UserRole, filtered by
environment, action and resource level) it returns `false` for every
resource-path argument; with the path omitted it returns `true` iff at least
one such row exists; with a path given it returns `true` iff at least one
matching row's pattern covers the path. -/
theorem check_permission_spec (db : RbacDb) (u e : Nat)
    (a : PermissionAction) (l : ResourceLevel) :
    (matchingRolePermissions db u e a l = [] →
      ∀ rp : Option (List Char), check_permission db u e a l rp = false)
    ∧ (check_permission db u e a l none = true ↔
        matchingRolePermissions db u e a l ≠ [])
    ∧ ∀ path, (check_permission db u e a l (some path) = true ↔
        ∃ rp ∈ matchingRolePermissions db u e a l,
          matches_resource rp.resourcePattern path = true) := by
  refine ⟨?_, ?_, ?_⟩
  · intro hempty rp
    cases rp <;> simp [check_permission, hempty]
  · by_cases hrows : matchingRolePermissions db u e a l = []
    · simp [check_permission, hrows]
    · simp [check_permission, List.isEmpty_iff, hrows]
  · intro path
    by_cases hrows : matchingRolePermissions db u e a l = []
    · simp [check_permission, hrows]
    · simp [check_permission, List.isEmpty_iff, hrows, List.any_eq_true]

/-! ### Witnesses -/

/-- C1 witness. -/
theorem check_permission_spec_witness :
    matchingRolePermissions ⟨[], [], [], []⟩ 1 1 PermissionAction.read ResourceLevel.topic = []
    ∧ check_permission ⟨[], [], [], []⟩ 1 1 PermissionAction.read ResourceLevel.topic
        (some "acme/prod/orders".toList) = false :=
  ⟨rfl, (check_permission_spec ⟨[], [], [], []⟩ 1 1 .read .topic).1 rfl
    (some "acme/prod/orders".toList)⟩

/-- C3 witness. -/
theorem matches_resource_slash_star_witness :
    pyEndsWith "acme/*".toList ['/', '*'] = true
    ∧ (matches_resource (some "acme/*".toList) "acme/prod/orders".toList = true ↔
        ("acme/prod/orders".toList = pyDropLast 2 "acme/*".toList ∨
          pyStartsWith "acme/prod/orders".toList
            (pyDropLast 2 "acme/*".toList ++ ['/']) = true)) :=
  ⟨by decide, matches_resource_slash_star_spec _ _ (by decide)⟩

/-- C4 witness. -/
theorem revoke_token_monotonic_witness :
    (validate_token (runOps tokenDbWRevoked []) "pc_w".toList 0).1 = none
    ∧ (revoke_token tokenDbWRevoked 1 1).1 = true := by
  have h := revoke_token_monotonic_spec tokenDbW 1 1 apiTokenRowW tokenDbWRevoked
    rfl rfl
    (by
      intro t' ht' hh
      simp only [tokenDbW, List.mem_singleton] at ht'
      subst ht'
      rfl)
    [] (by simp)
  exact ⟨h.1 "pc_w".toList 0 rfl, h.2.2⟩

/-- C5 witness. -/
theorem create_token_zero_days_witness :
    ∃ (fullToken : List Char) (tok : ApiToken) (db' : TokenDb),
      create_token ⟨[⟨1, true⟩], []⟩ 1 "w".toList (some 0) none [] 2 0 =
        .ok (fullToken, tok, db')
      ∧ tok.isRevoked = false ∧ tok.expiresAt = none
      ∧ (validate_token db' fullToken 5).1 =
          some (⟨1, true⟩, { tok with lastUsedAt := some 5 }) :=
  create_token_zero_days_spec ⟨[⟨1, true⟩], []⟩ 1 2 "w".toList none [] 0 5 ⟨1, true⟩
    rfl rfl (by simp)

/-- C7 witness. -/
theorem jwt_round_trip_witness :
    decode_token ⟨"k".toList, 30, 7⟩ (create_access_token ⟨"k".toList, 30, 7⟩ 42 none 0) 0 =
      some ⟨pyStr 42, 0 + 30 * 60, 0, "access".toList, none⟩
    ∧ verify_access_token ⟨"k".toList, 30, 7⟩
        (create_refresh_token ⟨"k".toList, 30, 7⟩ 42 none "j".toList 0).1 0 = none := by
  have h := jwt_round_trip_spec ⟨"k".toList, 30, 7⟩ 42 0 "j".toList (by norm_num) (by norm_num)
  exact ⟨h.1, h.2.2.1 none 0⟩

/-- C8 witness. -/
theorem decode_token_invalid_witness :
    decode_token jwtSampleSettings
      (.signed ⟨pyStr 1, 0, 0, "access".toList, none⟩ "secret".toList) 5 = none
    ∧ decode_token jwtSampleSettings (.malformed "x".toList) 5 = none :=
  ⟨(decode_token_invalid_spec jwtSampleSettings 5).1 ⟨pyStr 1, 0, 0, "access".toList, none⟩
      "secret".toList rfl (by norm_num),
    (decode_token_invalid_spec jwtSampleSettings 5).2 "x".toList⟩

/-- C9 witness. -/
theorem validate_token_inactive_user_witness :
    (validate_token tokenDbW9 "pc_w9".toList 0).1 = none := by
  apply validate_token_inactive_user_spec tokenDbW9 "pc_w9".toList 0 apiTokenRowW9
  · rw [get_valid_token]
    show List.find? _ [apiTokenRowW9] = _
    rw [List.find?_cons_of_pos]
    simp [apiTokenRowW9]
  · intro u hu hid
    simp only [tokenDbW9, List.mem_singleton] at hu
    subst hu
    rfl

/-- C2 witness. -/
theorem rbac_middleware_witness :
    strictRbacMiddlewareDispatch reqW (fun _ => ⟨200, []⟩) (some ⟨1, true, true⟩)
      (fun _ _ _ _ => false) = permissionDeniedResponse "read".toList "tenant".toList :=
  rbac_middleware_spec.2.1 reqW (fun _ => ⟨200, []⟩) ⟨1, true, true⟩ (fun _ _ _ _ => false)
    1 "read".toList "tenant".toList rfl (by decide) rfl rfl

/-- C10 witness. -/
theorem pkce_verify_witness :
    verify_pkce_challenge (generate_pkce_challenge pkceRndSample).codeVerifier
      (generate_pkce_challenge pkceRndSample).codeChallenge = some true
    ∧ asciiOk pkceMutSample = false
    ∧ verify_pkce_challenge pkceMutSample
        (generate_pkce_challenge pkceRndSample).codeChallenge = none := by
  have h := pkce_verify_spec pkceRndSample
  exact ⟨h.1, by decide, h.2.1 pkceMutSample (by decide)⟩

end PulsarConsole
